import Mathlib

/-!
Verification of the load-shed service (`src/app/main.py`): the admission
controller in the `work` endpoint, the circuit breaker embedded in the
`client` endpoint, and the outcome classification feeding the breaker.

Times are modelled as rationals (`ℚ`, standing in for epoch seconds),
counts as naturals, and the caller-supplied integer parameters as `ℤ`.
Randomness (the failure draw) and the remote call's result are passed in
as explicit parameters, so every endpoint becomes a pure function of its
inputs plus the pre-call breaker state.
-/

set_option autoImplicit false

namespace LoadShed

/-- Configuration constant `CB_FAIL_THRESHOLD = 5` (main.py line 44). -/
def CB_FAIL_THRESHOLD : ℕ := 5

/-- Configuration constant `CB_OPEN_SECONDS = 10.0` (main.py line 45). -/
def CB_OPEN_SECONDS : ℚ := 10

/-- Configuration constant `DEFAULT_QUEUE_LIMIT = 50` (main.py line 52). -/
def DEFAULT_QUEUE_LIMIT : ℤ := 50

/-- The circuit-breaker state: the module globals `CB_OPEN`, `CB_UNTIL`,
`CB_FAIL_COUNT` of main.py lines 41-43, read and written under `CB_LOCK`. -/
structure CBState where
  isOpen : Bool
  openUntil : ℚ
  failCount : ℕ
deriving Repr, DecidableEq

/-- The state at process start: `CB_OPEN = False`, `CB_UNTIL = 0.0`,
`CB_FAIL_COUNT = 0` (main.py lines 41-43). -/
def initState : CBState := { isOpen := false, openUntil := 0, failCount := 0 }

/-- The result the single remote attempt of `client` can have, as seen by
its exception handlers: normal response, `httpx.TimeoutException`,
`httpx.HTTPStatusError` (raised by `raise_for_status`), or
`httpx.RequestError`. -/
inductive RemoteResult
  | ok
  | timedOut
  | httpStatusError
  | transportFailed
deriving Repr, DecidableEq

/-- The outcome `client` reports to its caller: HTTP 400 validation error,
HTTP 503 breaker-open rejection, success JSON, HTTP 504 upstream timeout,
HTTP 502 upstream error, HTTP 502 upstream transport error. -/
inductive ClientOutcome
  | validationError
  | breakerOpen
  | success
  | timeout
  | remoteError
  | transportError
deriving Repr, DecidableEq

/-- What one invocation of `client` produces: the reported outcome, the
breaker state after the invocation, and whether a remote call was issued. -/
structure ClientResult where
  outcome : ClientOutcome
  state : CBState
  remoteCalled : Bool
deriving Repr, DecidableEq

/-- The breaker gate: the first `async with CB_LOCK` block of `client`
(main.py lines 139-149), at gate time `now` (line 137). Returns whether the
call is rejected, and the breaker state after the block: rejected calls and
closed-state calls leave the state untouched; an open breaker whose
deadline has passed is auto-closed (`CB_OPEN = False`, `CB_FAIL_COUNT = 0`;
`CB_UNTIL` itself is not reassigned, only its gauge is zeroed). -/
def breakerGate (now : ℚ) (s : CBState) : Bool × CBState :=
  if s.isOpen = true ∧ now < s.openUntil then
    (true, s)
  else if s.isOpen = true ∧ now ≥ s.openUntil then
    (false, { isOpen := false, openUntil := s.openUntil, failCount := 0 })
  else
    (false, s)

/-- The success handler: the `async with CB_LOCK` block of main.py lines
163-166, which sets `CB_FAIL_COUNT = 0` (and gauges) but does not assign
`CB_OPEN` or `CB_UNTIL`. -/
def onSuccess (s : CBState) : CBState :=
  { isOpen := s.isOpen, openUntil := s.openUntil, failCount := 0 }

/-- The `httpx.TimeoutException` handler's breaker update (main.py lines
172-178), at record time `t` (the `time.time()` of line 176):
`CB_FAIL_COUNT += 1`; if the count reaches `CB_FAIL_THRESHOLD`, open the
breaker with `CB_UNTIL = t + CB_OPEN_SECONDS`. -/
def onTimeout (t : ℚ) (s : CBState) : CBState :=
  if s.failCount + 1 ≥ CB_FAIL_THRESHOLD then
    { isOpen := true, openUntil := t + CB_OPEN_SECONDS, failCount := s.failCount + 1 }
  else
    { isOpen := s.isOpen, openUntil := s.openUntil, failCount := s.failCount + 1 }

/-- The `httpx.HTTPStatusError` handler's breaker update (main.py lines
184-190), transcribed separately from `onTimeout` because the source
repeats the block. -/
def onHTTPStatusError (t : ℚ) (s : CBState) : CBState :=
  if s.failCount + 1 ≥ CB_FAIL_THRESHOLD then
    { isOpen := true, openUntil := t + CB_OPEN_SECONDS, failCount := s.failCount + 1 }
  else
    { isOpen := s.isOpen, openUntil := s.openUntil, failCount := s.failCount + 1 }

/-- The `httpx.RequestError` handler's breaker update (main.py lines
196-202), transcribed separately because the source repeats the block. -/
def onTransportError (t : ℚ) (s : CBState) : CBState :=
  if s.failCount + 1 ≥ CB_FAIL_THRESHOLD then
    { isOpen := true, openUntil := t + CB_OPEN_SECONDS, failCount := s.failCount + 1 }
  else
    { isOpen := s.isOpen, openUntil := s.openUntil, failCount := s.failCount + 1 }

/-- The `/client` endpoint (main.py lines 126-203) as a function of its
query parameters, the gate time `now` (line 137), the failure record time
`t` (the `time.time()` inside a failure handler), the result the remote
attempt would have, and the pre-call breaker state. Validation of `ms`,
`fail_rate` and `timeout_ms` happens, in that order, before any breaker
access; then the gate; then (if permitted) the single remote attempt whose
result is classified by the four handlers above. -/
def client (ms : ℤ) (fail_rate : ℚ) (timeout_ms : ℤ) (now t : ℚ)
    (remote : RemoteResult) (s : CBState) : ClientResult :=
  if ms < 1 ∨ ms > 5000 then
    { outcome := .validationError, state := s, remoteCalled := false }
  else if fail_rate < 0 ∨ fail_rate > 1 then
    { outcome := .validationError, state := s, remoteCalled := false }
  else if timeout_ms < 1 ∨ timeout_ms > 10000 then
    { outcome := .validationError, state := s, remoteCalled := false }
  else
    match breakerGate now s with
    | (true, s1) => { outcome := .breakerOpen, state := s1, remoteCalled := false }
    | (false, s1) =>
      match remote with
      | .ok =>
          { outcome := .success, state := onSuccess s1, remoteCalled := true }
      | .timedOut =>
          { outcome := .timeout, state := onTimeout t s1, remoteCalled := true }
      | .httpStatusError =>
          { outcome := .remoteError, state := onHTTPStatusError t s1, remoteCalled := true }
      | .transportFailed =>
          { outcome := .transportError, state := onTransportError t s1, remoteCalled := true }

/-- The outcome the `/work` endpoint reports: HTTP 400 validation error,
HTTP 429 shed, HTTP 500 simulated failure, or the success JSON. -/
inductive WorkOutcome
  | validationError
  | shed
  | simulatedFailure
  | ok
deriving Repr, DecidableEq

/-- The externally observable side effects of `/work`, in program order:
the `QUEUE_DEPTH.set` gauge write, the shed/err/ok `WORK_ITEMS` counter
increments, and the `cpu_spin` busy-wait. -/
inductive WorkEvent
  | gaugeSet (d : ℤ)
  | shedInc
  | spin (ms : ℤ)
  | errInc
  | okInc
deriving Repr, DecidableEq

/-- The accept/shed decision of the admission controller: the condition
`queue_depth > queue_limit` at main.py line 101. -/
inductive AdmissionDecision
  | accept
  | shed
deriving Repr, DecidableEq

/-- The admission decision rule of main.py line 101 as a pure function. -/
def admissionDecision (queue_depth queue_limit : ℤ) : AdmissionDecision :=
  if queue_depth > queue_limit then .shed else .accept

/-- The `/work` endpoint (main.py lines 83-112) with a caller-supplied
`queue_depth` (the `queue_depth is None` branch samples it randomly; here
the sampled or supplied value is the argument), as a function of its
parameters and the simulator's random draw (`random.random()` at line 107).
Returns the outcome and the ordered list of side effects. -/
def work (ms : ℤ) (fail_rate : ℚ) (queue_depth queue_limit : ℤ)
    (draw : ℚ) : WorkOutcome × List WorkEvent :=
  if ms < 1 ∨ ms > 2000 then
    (.validationError, [])
  else if fail_rate < 0 ∨ fail_rate > 1 then
    (.validationError, [])
  else if queue_depth > queue_limit then
    (.shed, [.gaugeSet queue_depth, .shedInc])
  else if draw < fail_rate then
    (.simulatedFailure, [.gaugeSet queue_depth, .spin ms, .errInc])
  else
    (.ok, [.gaugeSet queue_depth, .spin ms, .okInc])

/-- One lock-protected breaker mutation, for reasoning about sequences of
operations: a gate check at time `now` (first critical section of
`client`), a recorded failure at time `t`, or a recorded success (second
critical section). -/
inductive BreakerOp
  | gate (now : ℚ)
  | fail (t : ℚ)
  | succeed
deriving Repr, DecidableEq

/-- Apply one breaker operation to a state. A recorded failure uses
`onTimeout`; the other two handlers are the same function (see the
equality theorem below). -/
def applyOp (s : CBState) : BreakerOp → CBState
  | .gate now => (breakerGate now s).2
  | .fail t => onTimeout t s
  | .succeed => onSuccess s

/-- Run a sequence of breaker operations from a state. -/
def runOps (s : CBState) (ops : List BreakerOp) : CBState :=
  ops.foldl applyOp s

/-- The list of breaker states visited while running `ops` from `s`,
including the initial and final states. -/
def statesAlong (s : CBState) : List BreakerOp → List CBState
  | [] => [s]
  | op :: ops => s :: statesAlong (applyOp s op) ops

/-- `failCount` never decreases between adjacent states of the list. -/
def failMonotone : List CBState → Prop
  | [] => True
  | [_] => True
  | a :: b :: rest => a.failCount ≤ b.failCount ∧ failMonotone (b :: rest)

instance failMonotoneDecidable : ∀ (l : List CBState), Decidable (failMonotone l)
  | [] => inferInstanceAs (Decidable True)
  | [_] => inferInstanceAs (Decidable True)
  | _ :: b :: rest =>
    have := failMonotoneDecidable (b :: rest)
    inferInstanceAs (Decidable (_ ∧ _))

/-- The breaker stays closed at every state visited while running `ops`
from `s`. -/
def allClosed : CBState → List BreakerOp → Prop
  | s, [] => s.isOpen = false
  | s, op :: ops => s.isOpen = false ∧ allClosed (applyOp s op) ops

instance allClosedDecidable : ∀ (s : CBState) (ops : List BreakerOp), Decidable (allClosed s ops)
  | s, [] => inferInstanceAs (Decidable (s.isOpen = false))
  | s, op :: ops =>
    have := allClosedDecidable (applyOp s op) ops
    inferInstanceAs (Decidable (_ ∧ _))

/-- At every step, `failCount` either does not decrease or the step is the
auto-close transition: the state was open and the operation produced the
closed state with `failCount = 0` and `openUntil` untouched. -/
def monotoneOrAutoClose : CBState → List BreakerOp → Prop
  | _, [] => True
  | s, op :: ops =>
    (s.failCount ≤ (applyOp s op).failCount ∨
      (s.isOpen = true ∧
        applyOp s op = { isOpen := false, openUntil := s.openUntil, failCount := 0 })) ∧
    monotoneOrAutoClose (applyOp s op) ops

/-- The concrete operation sequence used to analyse monotonicity of
`failCount`: five recorded failures at time 0 (the fifth opens the breaker
until time 10), then a call attempt at time 20, past the deadline. -/
def fiveFailuresThenLateGate : List BreakerOp :=
  [.fail 0, .fail 0, .fail 0, .fail 0, .fail 0, .gate 20]

section Helpers

/-- A recorded failure that does not reach the threshold only increments
the counter. -/
lemma onTimeout_below (t : ℚ) (s : CBState) (h : s.failCount + 1 < CB_FAIL_THRESHOLD) :
    onTimeout t s =
      { isOpen := s.isOpen, openUntil := s.openUntil, failCount := s.failCount + 1 } := by
  unfold onTimeout
  rw [if_neg (by omega)]

/-- Running `n ≤ 4` failures from a closed state with headroom keeps the
breaker closed throughout and adds the number of failures to the counter. -/
lemma allClosed_fails (ts : List ℚ) : ∀ (s : CBState), s.isOpen = false →
    s.failCount + ts.length < CB_FAIL_THRESHOLD →
    allClosed s (ts.map .fail) ∧
      runOps s (ts.map .fail) =
        { isOpen := false, openUntil := s.openUntil, failCount := s.failCount + ts.length } := by
  induction ts with
  | nil =>
    intro s hs _
    refine ⟨hs, ?_⟩
    simp [runOps, hs.symm]
  | cons t ts ih =>
    intro s hs hlt
    have hstep : onTimeout t s =
        { isOpen := s.isOpen, openUntil := s.openUntil, failCount := s.failCount + 1 } :=
      onTimeout_below t s (by simp at hlt ⊢; omega)
    have hrec := ih { isOpen := s.isOpen, openUntil := s.openUntil, failCount := s.failCount + 1 }
      (by simp [hs]) (by simp at hlt ⊢; omega)
    constructor
    · exact ⟨hs, by simpa [allClosed, applyOp, hstep] using hrec.1⟩
    · have : runOps s ((t :: ts).map .fail) =
          runOps { isOpen := s.isOpen, openUntil := s.openUntil, failCount := s.failCount + 1 }
            (ts.map .fail) := by
        simp [runOps, applyOp, hstep]
      rw [this, hrec.2]
      simp [hs]
      omega

/-- `allClosed` splits across list append. -/
lemma allClosed_append (l1 l2 : List BreakerOp) : ∀ (s : CBState),
    allClosed s (l1 ++ l2) ↔ allClosed s l1 ∧ allClosed (runOps s l1) l2 := by
  induction l1 with
  | nil =>
    intro s
    unfold allClosed
    constructor
    · intro h
      have hs : s.isOpen = false := by
        cases l2 with
        | nil => exact h
        | cons op ops => exact h.1
      exact ⟨hs, by simpa [runOps] using h⟩
    · intro h
      simpa [runOps] using h.2
  | cons op ops ih =>
    intro s
    constructor
    · intro h
      obtain ⟨hs, hrest⟩ := h
      have := (ih (applyOp s op)).mp hrest
      exact ⟨⟨hs, this.1⟩, by simpa [runOps] using this.2⟩
    · intro h
      exact ⟨h.1.1, (ih (applyOp s op)).mpr ⟨h.1.2, by simpa [runOps] using h.2⟩⟩

end Helpers

/-- C1: admission sheds exactly when the reported queue depth strictly
exceeds the queue limit; a depth at or below the limit (including exactly
at it) is accepted, and the accepted request proceeds to the simulated
work, ending in `ok` or `simulatedFailure`. -/
theorem work_sheds_iff_depth_gt_limit (ms : ℤ) (fail_rate : ℚ)
    (queue_depth queue_limit : ℤ) (draw : ℚ)
    (hms : 1 ≤ ms ∧ ms ≤ 2000) (hfr : 0 ≤ fail_rate ∧ fail_rate ≤ 1) :
    ((work ms fail_rate queue_depth queue_limit draw).1 = WorkOutcome.shed ↔
      queue_depth > queue_limit) ∧
    (admissionDecision queue_depth queue_limit = AdmissionDecision.shed ↔
      queue_depth > queue_limit) ∧
    (queue_depth ≤ queue_limit →
      (work ms fail_rate queue_depth queue_limit draw).1 = WorkOutcome.ok ∨
      (work ms fail_rate queue_depth queue_limit draw).1 = WorkOutcome.simulatedFailure) := by
  have hA : ¬(ms < 1 ∨ ms > 2000) := by omega
  have hB : ¬(fail_rate < 0 ∨ fail_rate > 1) := by
    rintro (h | h)
    · exact absurd hfr.1 (not_le.mpr h)
    · exact absurd hfr.2 (not_le.mpr h)
  unfold work admissionDecision
  rw [if_neg hA, if_neg hB]
  by_cases hd : queue_depth > queue_limit
  · simp [hd]
  · by_cases hdr : draw < fail_rate <;> simp [hd, hdr]

/-- C1 witness: depth 50 at limit 50 is accepted, depth 51 is shed. -/
theorem work_sheds_iff_depth_gt_limit_witness :
    (work 50 0 51 50 1).1 = WorkOutcome.shed ∧
    ((work 50 0 50 50 1).1 = WorkOutcome.ok ∨
      (work 50 0 50 50 1).1 = WorkOutcome.simulatedFailure) :=
  ⟨(work_sheds_iff_depth_gt_limit 50 0 51 50 1 (by decide) (by decide)).1.mpr (by decide),
    (work_sheds_iff_depth_gt_limit 50 0 50 50 1 (by decide) (by decide)).2.2 (by decide)⟩

/-- C2: from the initial closed state, four recorded failures (at any
times) leave the breaker closed with `failCount = 4`; the fifth failure, at
time `t5`, opens it with `openUntil = t5 + 10`. -/
theorem breaker_opens_on_fifth_failure (t1 t2 t3 t4 t5 : ℚ) :
    (runOps initState [.fail t1, .fail t2, .fail t3, .fail t4]).isOpen = false ∧
    (runOps initState [.fail t1, .fail t2, .fail t3, .fail t4]).failCount = 4 ∧
    (onTimeout t5 (runOps initState [.fail t1, .fail t2, .fail t3, .fail t4])).isOpen = true ∧
    (onTimeout t5 (runOps initState [.fail t1, .fail t2, .fail t3, .fail t4])).failCount = 5 ∧
    (onTimeout t5 (runOps initState [.fail t1, .fail t2, .fail t3, .fail t4])).openUntil =
      t5 + 10 := by
  norm_num [runOps, applyOp, onTimeout, initState, CB_FAIL_THRESHOLD, CB_OPEN_SECONDS]

/-- C7: the three failure handlers (timeout, HTTP status error, transport
error) are the same function of the prior breaker state and the record
time: each increments `failCount` by one and opens the breaker with
deadline `t + 10` exactly when the incremented count reaches the
threshold 5, leaving `isOpen` and `openUntil` untouched otherwise. -/
theorem failure_handlers_agree (t : ℚ) (s : CBState) :
    onTimeout t s = onHTTPStatusError t s ∧
    onTimeout t s = onTransportError t s ∧
    (onTimeout t s).failCount = s.failCount + 1 ∧
    onTimeout t s =
      (if s.failCount + 1 ≥ CB_FAIL_THRESHOLD then
        { isOpen := true, openUntil := t + CB_OPEN_SECONDS, failCount := s.failCount + 1 }
      else
        { isOpen := s.isOpen, openUntil := s.openUntil, failCount := s.failCount + 1 }) := by
  refine ⟨rfl, rfl, ?_, rfl⟩
  unfold onTimeout
  split <;> rfl

/-- C3: a call with valid parameters attempted while the breaker is open
and strictly before `openUntil` is rejected as `breakerOpen`: no remote
call is made and the whole breaker state is returned unchanged. -/
theorem open_breaker_rejects_unchanged (ms : ℤ) (fail_rate : ℚ) (timeout_ms : ℤ)
    (now t : ℚ) (remote : RemoteResult) (s : CBState)
    (hms : 1 ≤ ms ∧ ms ≤ 5000) (hfr : 0 ≤ fail_rate ∧ fail_rate ≤ 1)
    (htm : 1 ≤ timeout_ms ∧ timeout_ms ≤ 10000)
    (hopen : s.isOpen = true) (hnow : now < s.openUntil) :
    client ms fail_rate timeout_ms now t remote s =
      { outcome := .breakerOpen, state := s, remoteCalled := false } := by
  have hA : ¬(ms < 1 ∨ ms > 5000) := by omega
  have hB : ¬(fail_rate < 0 ∨ fail_rate > 1) := by
    rintro (h | h)
    · exact absurd hfr.1 (not_le.mpr h)
    · exact absurd hfr.2 (not_le.mpr h)
  have hC : ¬(timeout_ms < 1 ∨ timeout_ms > 10000) := by omega
  unfold client
  rw [if_neg hA, if_neg hB, if_neg hC]
  have hgate : breakerGate now s = (true, s) := by
    unfold breakerGate
    rw [if_pos ⟨hopen, hnow⟩]
  rw [hgate]

/-- C3 witness: an open breaker (until time 100, 3 failures) rejects a
valid call at time 5 without touching the state. -/
theorem open_breaker_rejects_unchanged_witness :
    client 50 0 200 5 6 RemoteResult.ok { isOpen := true, openUntil := 100, failCount := 3 } =
      { outcome := .breakerOpen,
        state := { isOpen := true, openUntil := 100, failCount := 3 },
        remoteCalled := false } :=
  open_breaker_rejects_unchanged 50 0 200 5 6 RemoteResult.ok
    { isOpen := true, openUntil := 100, failCount := 3 }
    (by decide) (by decide) (by decide) (by decide) (by decide)

/-- C4: a valid call attempted while the breaker is open but at or past
`openUntil` behaves exactly like the same call made against the auto-closed
state (`isOpen = false`, `failCount = 0`, `openUntil` untouched); in
particular a failing call restarts the failure count at 1 and a successful
call leaves it at 0. -/
theorem cooldown_autocloses_before_call (ms : ℤ) (fail_rate : ℚ) (timeout_ms : ℤ)
    (now t : ℚ) (remote : RemoteResult) (s : CBState)
    (hms : 1 ≤ ms ∧ ms ≤ 5000) (hfr : 0 ≤ fail_rate ∧ fail_rate ≤ 1)
    (htm : 1 ≤ timeout_ms ∧ timeout_ms ≤ 10000)
    (hopen : s.isOpen = true) (hnow : s.openUntil ≤ now) :
    client ms fail_rate timeout_ms now t remote s =
      client ms fail_rate timeout_ms now t remote
        { isOpen := false, openUntil := s.openUntil, failCount := 0 } ∧
    (remote ≠ .ok →
      (client ms fail_rate timeout_ms now t remote s).state.failCount = 1) ∧
    (remote = .ok →
      (client ms fail_rate timeout_ms now t remote s).state.failCount = 0) := by
  have hA : ¬(ms < 1 ∨ ms > 5000) := by omega
  have hB : ¬(fail_rate < 0 ∨ fail_rate > 1) := by
    rintro (h | h)
    · exact absurd hfr.1 (not_le.mpr h)
    · exact absurd hfr.2 (not_le.mpr h)
  have hC : ¬(timeout_ms < 1 ∨ timeout_ms > 10000) := by omega
  have hgate : breakerGate now s =
      (false, { isOpen := false, openUntil := s.openUntil, failCount := 0 }) := by
    unfold breakerGate
    rw [if_neg (by rintro ⟨_, h⟩; exact absurd hnow (not_le.mpr h)),
      if_pos ⟨hopen, hnow⟩]
  have hgate0 : breakerGate now { isOpen := false, openUntil := s.openUntil, failCount := 0 } =
      (false, { isOpen := false, openUntil := s.openUntil, failCount := 0 }) := by
    unfold breakerGate
    rw [if_neg (by rintro ⟨h, _⟩; simp at h), if_neg (by rintro ⟨h, _⟩; simp at h)]
  constructor
  · unfold client
    rw [if_neg hA, if_neg hB, if_neg hC, if_neg hA, if_neg hB, if_neg hC, hgate, hgate0]
  · constructor
    · intro hfail
      unfold client
      rw [if_neg hA, if_neg hB, if_neg hC, hgate]
      cases remote with
      | ok => exact absurd rfl hfail
      | timedOut =>
        simp [onTimeout, CB_FAIL_THRESHOLD]
      | httpStatusError =>
        simp [onHTTPStatusError, CB_FAIL_THRESHOLD]
      | transportFailed =>
        simp [onTransportError, CB_FAIL_THRESHOLD]
    · intro hok
      subst hok
      unfold client
      rw [if_neg hA, if_neg hB, if_neg hC, hgate]
      simp [onSuccess]

/-- C4 witness: with the breaker open until time 10 and 5 failures
accumulated, a failing call at time 20 runs against the auto-closed state
and ends with `failCount = 1`. -/
theorem cooldown_autocloses_before_call_witness :
    client 50 0 200 20 21 RemoteResult.timedOut
        { isOpen := true, openUntil := 10, failCount := 5 } =
      client 50 0 200 20 21 RemoteResult.timedOut
        { isOpen := false, openUntil := 10, failCount := 0 } ∧
    (client 50 0 200 20 21 RemoteResult.timedOut
        { isOpen := true, openUntil := 10, failCount := 5 }).state.failCount = 1 :=
  have h := cooldown_autocloses_before_call 50 0 200 20 21 RemoteResult.timedOut
    { isOpen := true, openUntil := 10, failCount := 5 }
    (by decide) (by decide) (by decide) (by decide) (by decide)
  ⟨h.1, h.2.1 (by decide)⟩

/-- C5: a success recorded while the breaker is closed resets `failCount`
to 0 whatever its prior value (and leaves `isOpen`/`openUntil` alone), so
running at most 4 failures, then a success, then at most 4 more failures
from the initial state keeps the breaker closed at every step. -/
theorem success_resets_and_never_opens (s : CBState) (ts1 ts2 : List ℚ)
    (h1 : ts1.length ≤ 4) (h2 : ts2.length ≤ 4) :
    onSuccess s = { isOpen := s.isOpen, openUntil := s.openUntil, failCount := 0 } ∧
    allClosed initState (ts1.map .fail ++ BreakerOp.succeed :: ts2.map .fail) := by
  refine ⟨rfl, ?_⟩
  have hfirst := allClosed_fails ts1 initState rfl
    (by simp [initState, CB_FAIL_THRESHOLD]; omega)
  rw [allClosed_append]
  refine ⟨hfirst.1, ?_⟩
  rw [hfirst.2]
  have hsucc : applyOp
      { isOpen := false, openUntil := initState.openUntil,
        failCount := initState.failCount + ts1.length } BreakerOp.succeed =
      { isOpen := false, openUntil := initState.openUntil, failCount := 0 } := by
    simp [applyOp, onSuccess]
  refine ⟨rfl, ?_⟩
  rw [hsucc]
  exact (allClosed_fails ts2 _ rfl (by simp [CB_FAIL_THRESHOLD]; omega)).1

/-- C5 witness: 4 failures, a success, then 4 more failures from the start
state keep the breaker closed throughout; a success after 4 failures
resets the count to 0. -/
theorem success_resets_and_never_opens_witness :
    onSuccess { isOpen := false, openUntil := 0, failCount := 4 } =
      { isOpen := false, openUntil := 0, failCount := 0 } ∧
    allClosed initState
      ([0, 1, 2, 3].map BreakerOp.fail ++
        BreakerOp.succeed :: [4, 5, 6, 7].map BreakerOp.fail) :=
  success_resets_and_never_opens { isOpen := false, openUntil := 0, failCount := 4 }
    [0, 1, 2, 3] [4, 5, 6, 7] (by decide) (by decide)

/-- C6: a `client` call with any parameter out of range (`ms ∉ [1,5000]`,
`fail_rate ∉ [0,1]`, or `timeout_ms ∉ [1,10000]`) returns a validation
error, makes no remote call, and returns the breaker state exactly as it
was. -/
theorem validation_error_leaves_breaker (ms : ℤ) (fail_rate : ℚ) (timeout_ms : ℤ)
    (now t : ℚ) (remote : RemoteResult) (s : CBState)
    (h : ms < 1 ∨ ms > 5000 ∨ fail_rate < 0 ∨ fail_rate > 1 ∨
      timeout_ms < 1 ∨ timeout_ms > 10000) :
    client ms fail_rate timeout_ms now t remote s =
      { outcome := .validationError, state := s, remoteCalled := false } := by
  unfold client
  by_cases hA : ms < 1 ∨ ms > 5000
  · rw [if_pos hA]
  · rw [if_neg hA]
    by_cases hB : fail_rate < 0 ∨ fail_rate > 1
    · rw [if_pos hB]
    · rw [if_neg hB]
      have hC : timeout_ms < 1 ∨ timeout_ms > 10000 := by
        rcases h with h | h | h | h | h | h
        · exact absurd (Or.inl h) hA
        · exact absurd (Or.inr h) hA
        · exact absurd (Or.inl h) hB
        · exact absurd (Or.inr h) hB
        · exact Or.inl h
        · exact Or.inr h
      rw [if_pos hC]

/-- C6 witness: `timeout_ms = 0` is rejected by validation and the breaker
state (open until 30, 2 failures) is untouched, with no remote call. -/
theorem validation_error_leaves_breaker_witness :
    client 50 0 0 5 6 RemoteResult.ok { isOpen := true, openUntil := 30, failCount := 2 } =
      { outcome := .validationError,
        state := { isOpen := true, openUntil := 30, failCount := 2 },
        remoteCalled := false } :=
  validation_error_leaves_breaker 50 0 0 5 6 RemoteResult.ok
    { isOpen := true, openUntil := 30, failCount := 2 }
    (by decide)

/-- C8: for every request that passes validation, the queue-depth gauge
write is the first side effect of `work` — it precedes the accept/shed
decision's counter increment on the shed path and on the accept path
alike. -/
theorem gauge_set_before_decision (ms : ℤ) (fail_rate : ℚ)
    (queue_depth queue_limit : ℤ) (draw : ℚ)
    (hms : 1 ≤ ms ∧ ms ≤ 2000) (hfr : 0 ≤ fail_rate ∧ fail_rate ≤ 1) :
    (work ms fail_rate queue_depth queue_limit draw).2.head? =
      some (WorkEvent.gaugeSet queue_depth) ∧
    (queue_depth > queue_limit →
      (work ms fail_rate queue_depth queue_limit draw).2 =
        [.gaugeSet queue_depth, .shedInc]) ∧
    (queue_depth ≤ queue_limit →
      (work ms fail_rate queue_depth queue_limit draw).2 =
        [.gaugeSet queue_depth, .spin ms,
          if draw < fail_rate then .errInc else .okInc]) := by
  have hA : ¬(ms < 1 ∨ ms > 2000) := by omega
  have hB : ¬(fail_rate < 0 ∨ fail_rate > 1) := by
    rintro (h | h)
    · exact absurd hfr.1 (not_le.mpr h)
    · exact absurd hfr.2 (not_le.mpr h)
  unfold work
  rw [if_neg hA, if_neg hB]
  by_cases hd : queue_depth > queue_limit
  · simp [hd]
  · by_cases hdr : draw < fail_rate <;> simp [hd, hdr]

/-- C8 witness: on a shed request (depth 60 > limit 50) and on an accepted
request (depth 10 ≤ limit 50) the gauge write is the first event. -/
theorem gauge_set_before_decision_witness :
    (work 50 0 60 50 1).2 = [.gaugeSet 60, .shedInc] ∧
    (work 50 0 10 50 1).2 = [.gaugeSet 10, .spin 50, .okInc] :=
  have hshed := (gauge_set_before_decision 50 0 60 50 1 (by decide) (by decide)).2.1 (by decide)
  have hacc := (gauge_set_before_decision 50 0 10 50 1 (by decide) (by decide)).2.2 (by decide)
  ⟨hshed, by rw [hacc]; norm_num⟩

/-- C9 counterexample: the sequence of five recorded failures then a call
attempt past the cooldown contains no success, yet `failCount` drops from
5 to 0 at the auto-close step, so it is not monotonically non-decreasing
along that success-free sequence. -/
theorem failcount_not_monotone_without_success :
    BreakerOp.succeed ∉ fiveFailuresThenLateGate ∧
    ¬ failMonotone (statesAlong initState fiveFailuresThenLateGate) := by
  constructor
  · decide
  · norm_num [fiveFailuresThenLateGate, failMonotone, statesAlong, applyOp, onTimeout,
      breakerGate, initState, CB_FAIL_THRESHOLD, CB_OPEN_SECONDS]

/-- C9 amended: along every success-free sequence of breaker operations,
each step either leaves `failCount` non-decreasing or is the auto-close
transition, which resets an open breaker to closed with `failCount = 0`
(and `openUntil` untouched). -/
theorem failcount_monotone_except_autoclose (ops : List BreakerOp) : ∀ (s : CBState),
    BreakerOp.succeed ∉ ops → monotoneOrAutoClose s ops := by
  induction ops with
  | nil =>
    intro s _
    trivial
  | cons op ops ih =>
    intro s hmem
    have hop : op ≠ BreakerOp.succeed := fun h => hmem (h ▸ List.mem_cons_self op ops)
    have hops : BreakerOp.succeed ∉ ops := fun h => hmem (List.mem_cons_of_mem op h)
    refine ⟨?_, ih (applyOp s op) hops⟩
    cases op with
    | succeed => exact absurd rfl hop
    | fail t =>
      left
      simp only [applyOp, onTimeout]
      split <;> simp
    | gate now =>
      simp only [applyOp, breakerGate]
      by_cases hrej : s.isOpen = true ∧ now < s.openUntil
      · rw [if_pos hrej]
        left
        exact le_refl _
      · rw [if_neg hrej]
        by_cases hclose : s.isOpen = true ∧ now ≥ s.openUntil
        · rw [if_pos hclose]
          right
          exact ⟨hclose.1, rfl⟩
        · rw [if_neg hclose]
          left
          exact le_refl _

/-- C9 amended witness: along five failures then a late call attempt
(success-free), every step is covered: non-decreasing counts up to the
threshold and the final auto-close reset. -/
theorem failcount_monotone_except_autoclose_witness :
    monotoneOrAutoClose initState fiveFailuresThenLateGate :=
  failcount_monotone_except_autoclose fiveFailuresThenLateGate initState (by decide)

/-- C10: `work` performs no range check on a caller-supplied queue depth:
any integer depth at or below the limit — negative included — passes
admission (the outcome is `ok` or `simulatedFailure`, never a validation
error or a shed) and that very value is written to the queue-depth
gauge. -/
theorem no_queue_depth_validation (ms : ℤ) (fail_rate : ℚ)
    (queue_depth queue_limit : ℤ) (draw : ℚ)
    (hms : 1 ≤ ms ∧ ms ≤ 2000) (hfr : 0 ≤ fail_rate ∧ fail_rate ≤ 1)
    (hd : queue_depth ≤ queue_limit) :
    ((work ms fail_rate queue_depth queue_limit draw).1 = WorkOutcome.ok ∨
      (work ms fail_rate queue_depth queue_limit draw).1 = WorkOutcome.simulatedFailure) ∧
    (work ms fail_rate queue_depth queue_limit draw).2.head? =
      some (WorkEvent.gaugeSet queue_depth) := by
  have hA : ¬(ms < 1 ∨ ms > 2000) := by omega
  have hB : ¬(fail_rate < 0 ∨ fail_rate > 1) := by
    rintro (h | h)
    · exact absurd hfr.1 (not_le.mpr h)
    · exact absurd hfr.2 (not_le.mpr h)
  have hD : ¬(queue_depth > queue_limit) := not_lt.mpr hd
  unfold work
  rw [if_neg hA, if_neg hB, if_neg hD]
  by_cases hdr : draw < fail_rate <;> simp [hdr]

/-- C10 witness: a negative caller-supplied depth (-7) is admitted against
limit 50 and written to the gauge as -7. -/
theorem no_queue_depth_validation_witness :
    ((work 50 0 (-7) 50 1).1 = WorkOutcome.ok ∨
      (work 50 0 (-7) 50 1).1 = WorkOutcome.simulatedFailure) ∧
    (work 50 0 (-7) 50 1).2.head? = some (WorkEvent.gaugeSet (-7)) :=
  no_queue_depth_validation 50 0 (-7) 50 1 (by decide) (by decide) (by decide)

end LoadShed
